import Mathlib

/-!
Verification development for the wagatonix converter
(converter_modasai_gnode.py).  The definitions below are a shallow
embedding of the numerical core of the converter: numpy float arrays are
modelled as lists of rationals (the concrete values handled by the
trigger / offset logic are exact), the heterogeneous Tobii json records
are modelled both as a typed record with optional fields and, where the
dynamic typing of the original matters, as a small model of Python
values.  All theorems are about these definitions.
-/

namespace Wagatonix

/-- Model of numpy.diff on a one-dimensional array: consecutive
differences, second minus first. -/
def diffs (xs : List ℚ) : List ℚ :=
  (xs.zip xs.tail).map (fun p => p.2 - p.1)

/-- Model of numpy.nonzero / numpy.where on a boolean mask: the list of
indices holding true, in increasing order. -/
def whereTrue : List Bool → List ℕ
  | [] => []
  | b :: bs => if b then 0 :: (whereTrue bs).map (· + 1) else (whereTrue bs).map (· + 1)

theorem whereTrue_eq_range_filter (m : List Bool) :
    whereTrue m = (List.range m.length).filter (fun j => m.getD j false) := by
  induction m with
  | nil => rfl
  | cons b bs ih =>
      simp only [whereTrue, List.length_cons, List.range_succ_eq_map, List.filter_cons,
        List.getD_cons_zero, List.filter_map]
      have hmap : ((List.range bs.length).filter
          ((fun j => (b :: bs).getD j false) ∘ Nat.succ)).map Nat.succ
          = ((List.range bs.length).filter (fun j => bs.getD j false)).map Nat.succ := by
        have : ((fun j => (b :: bs).getD j false) ∘ Nat.succ)
            = (fun j => bs.getD j false) := by
          funext j; simp [List.getD_cons_succ]
        rw [this]
      cases b with
      | true => simp only [if_pos rfl, hmap, ← ih]
      | false => simp only [Bool.false_eq_true, if_neg, hmap, ← ih]

/- ------------------------------------------------------------------ -/
/- OffsetResolver: determine_offsets, EEG side (source lines 180, 182) -/
/- ------------------------------------------------------------------ -/

/-- Boolean mask of sync-class trigger transitions as the code computes
it: logical_and(diff(trigger) > 1, diff(trigger) < 5).  Note that this
is the signed difference, not its magnitude. -/
def syncMask (trigger : List ℚ) : List Bool :=
  (diffs trigger).map (fun d => decide (1 < d ∧ d < 5))

/-- EEG side of determine_offsets:
time[np.where(trigger_on_erg)[0][3]].  Returns none when fewer than four
sync-class transitions exist (IndexError in the original) or the index
is out of range of the time vector. -/
def determine_offsets_eeg (time trigger : List ℚ) : Option ℚ :=
  ((whereTrue (syncMask trigger))[3]?).bind (fun i => time[i]?)

/-- Spec-side comparison definition (follows the words of the spec, for
refinement of claim C1 only): sync-class edges are transitions whose
diff MAGNITUDE lies strictly between 1 and 5, and the primary offset is
the time at the fourth such edge. -/
def primary_offset_spec (time trigger : List ℚ) : Option ℚ :=
  ((whereTrue ((diffs trigger).map (fun d => decide (1 < |d| ∧ |d| < 5))))[3]?).bind
    (fun i => time[i]?)

/- ------------------------------------------------------------------- -/
/- Python value model, used where the dynamic typing of the source      -/
/- matters (determine_offsets, Tobii side, source lines 181 and 184).   -/
/- ------------------------------------------------------------------- -/

/-- Minimal model of a Python runtime value as handled by
determine_offsets: integers, floats (modelled exactly as rationals),
strings, and json dictionaries. -/
inductive PyVal where
  | int : Int → PyVal
  | rat : ℚ → PyVal
  | str : String → PyVal
  | dict : List (String × PyVal) → PyVal

/-- Python dict membership test, x.__contains__(key); false on any
non-dict value. -/
def dictContains (v : PyVal) (k : String) : Bool :=
  match v with
  | .dict fs => fs.any (fun p => p.1 == k)
  | _ => false

/-- Python dict item lookup x[key]; none models a KeyError or indexing
a non-dict value. -/
def dictGet (v : PyVal) (k : String) : Option PyVal :=
  match v with
  | .dict fs => (fs.find? (fun p => p.1 == k)).map (·.2)
  | _ => none

/-- Comparison of a looked-up Python value with a string literal, as in
y["dir"] == "out": true only when the lookup yields that string. -/
def pyIsStr (o : Option PyVal) (s : String) : Bool :=
  match o with
  | some (.str t) => t == s
  | _ => false

/-- Python binary +.  Adding a dict to anything (or any other
unsupported pair) is a TypeError, modelled as none. -/
def pyAdd : PyVal → PyVal → Option PyVal
  | .int a, .int b => some (.int (a + b))
  | .int a, .rat b => some (.rat (a + b))
  | .rat a, .int b => some (.rat (a + b))
  | .rat a, .rat b => some (.rat (a + b))
  | .str a, .str b => some (.str (a ++ b))
  | _, _ => none

/-- The filtered outgoing sync records of determine_offsets (source
line 181): records containing key "dir" whose "dir" value equals
"out". -/
def syncTriggerTobii (tobii : List PyVal) : List PyVal :=
  (tobii.filter (fun x => dictContains x "dir")).filter
    (fun y => pyIsStr (dictGet y "dir") "out")

/-- Tobii side of determine_offsets as the code writes it (source line
184): sync_trigger_tobii[0] + 10*10**6.  The first filtered RECORD (a
dict), not its "ts" entry, is the left operand of +, so pyAdd is applied
to a dict.  none models the IndexError (empty filter result) or the
TypeError (dict + int). -/
def determine_offsets_tobii (tobii : List PyVal) : Option PyVal :=
  match syncTriggerTobii tobii with
  | [] => none
  | r :: _ => pyAdd r (.int (10 * 10 ^ 6))

/-- Spec-side comparison definition (follows the words of the spec, for
claim C2 only): the secondary offset is the integer timestamp of the
first outgoing record plus the fixed lag 10*10^6. -/
def secondary_offset_spec (tobii : List PyVal) : Option Int :=
  match syncTriggerTobii tobii with
  | [] => none
  | r :: _ =>
      (dictGet r "ts").bind (fun v =>
        match v with
        | .int t => some (t + 10 * 10 ^ 6)
        | _ => none)

/-- Full determine_offsets (source lines 169-184): both sides must
evaluate without raising, otherwise the call raises (none). -/
def determine_offsets (time trigger : List ℚ) (tobii : List PyVal) :
    Option (ℚ × PyVal) :=
  match determine_offsets_eeg time trigger, determine_offsets_tobii tobii with
  | some e, some t => some (e, t)
  | _, _ => none

/-- Offset-selection logic of main (source lines 653-657):
determine_offsets is invoked unconditionally, and only afterwards are
non-empty command-line overrides substituted for its results.  A raise
inside determine_offsets (none) aborts the run even when both overrides
are present. -/
def mainOffsets (time trigger : List ℚ) (tobii : List PyVal)
    (eegOv tobiiOv : Option ℚ) : Option (PyVal × PyVal) :=
  match determine_offsets time trigger tobii with
  | none => none
  | some (e, t) =>
      some (match eegOv with
            | some v => .rat v
            | none => .rat e,
            match tobiiOv with
            | some v => .rat v
            | none => t)

/- ------------------------------------------------------------------ -/
/- EdgeEventExtractor: save_events (source lines 107-147)              -/
/- ------------------------------------------------------------------ -/

/-- Transition indices of save_events: np.nonzero(np.diff(trigger)),
the diff positions whose value is nonzero. -/
def transIdxs (trigger : List ℚ) : List ℕ :=
  whereTrue ((diffs trigger).map (fun d => decide (d ≠ 0)))

/-- The states array of save_events (source line 108):
trigger[np.nonzero(np.diff(trigger))], i.e. the trigger value AT each
diff index, which is the level BEFORE the transition. -/
def statesOf (trigger : List ℚ) : List ℚ :=
  (transIdxs trigger).map (fun i => trigger.getD i 0)

/-- The candidate event times of save_events (source line 110): diff
indices divided by the hard-coded sample rate 512. -/
def eventTimes (trigger : List ℚ) : List ℚ :=
  (transIdxs trigger).map (fun i => (Nat.cast i : ℚ) / 512)

/-- Corner event times (source line 111): the times whose state is 8
or 10, via the boolean mask over the states array. -/
def corners (trigger : List ℚ) : List ℚ :=
  (((eventTimes trigger).zip (statesOf trigger)).filter
    (fun p => decide (p.2 = 8 ∨ p.2 = 10))).map (·.1)

/-- Experiment-start event times (source line 112): the times whose
state is 4 or 6. -/
def exp_start (trigger : List ℚ) : List ℚ :=
  (((eventTimes trigger).zip (statesOf trigger)).filter
    (fun p => decide (p.2 = 4 ∨ p.2 = 6))).map (·.1)

/-- Spec-side comparison definition (follows the words of the spec, for
claim C4 only): corner times classified by the POST-transition trigger
level, the value at index one past the diff index. -/
def corners_spec (trigger : List ℚ) : List ℚ :=
  (((eventTimes trigger).zip ((transIdxs trigger).map
      (fun i => trigger.getD (i + 1) 0))).filter
    (fun p => decide (p.2 = 8 ∨ p.2 = 10))).map (·.1)

/-- In-place assignment extents[-1] = v on a nonempty array. -/
def setLast (xs : List ℚ) (v : ℚ) : List ℚ :=
  xs.dropLast ++ [v]

/-- Extent construction for experiment-start regions (source lines
127-131): an array of ones whose last entry is replaced by 100 when it
has more than one entry, and the literal [100] otherwise. -/
def expExtents (n : ℕ) : List ℚ :=
  if 1 < (List.replicate n (1 : ℚ)).length then setLast (List.replicate n (1 : ℚ)) 100
  else [100]

/-- Reference-appending loop of save_events (source lines 139-147): one
pass extending a tag's reference list by every data array of a group,
in order. -/
def appendRefs : List String → List String → List String
  | refs, [] => refs
  | refs, x :: xs => appendRefs (refs ++ [x]) xs

/-- Result of save_events: positions and extents of the two multi_tags
and their final reference lists. -/
structure EventsOut where
  corner_positions : List ℚ
  exp_positions : List ℚ
  exp_extents : List ℚ
  corner_refs : List String
  exp_refs : List String
deriving DecidableEq

/-- Shallow embedding of save_events (source lines 107-147) on the
identities of the data arrays in the EEG and Tobii groups: both
multi_tags receive a reference to every array of the EEG group and then
to every array of the Tobii group. -/
def save_events (trigger : List ℚ) (eegArrays tobiiArrays : List String) : EventsOut :=
  { corner_positions := corners trigger
    exp_positions := exp_start trigger
    exp_extents := expExtents (exp_start trigger).length
    corner_refs := appendRefs (appendRefs [] eegArrays) tobiiArrays
    exp_refs := appendRefs (appendRefs [] eegArrays) tobiiArrays }

/- ------------------------------------------------------------------ -/
/- Theorems                                                            -/
/- ------------------------------------------------------------------ -/

theorem getD_map_eval (l : List ℚ) (p : ℚ → Bool) (j : ℕ) (hj : j < l.length) :
    (l.map p).getD j false = p (l.getD j 0) := by
  rw [List.getD_eq_getElem?_getD, List.getD_eq_getElem?_getD, List.getElem?_map,
    List.getElem?_eq_getElem hj]
  rfl

/-- Claim C1, counterexample.  On the stream with time 0..8 and trigger
values alternating 0,3 the code (signed diff in (1,5)) picks the fourth
rising edge, at diff index 6, while the claim (diff MAGNITUDE in (1,5))
would also count the falling edges and picks diff index 3; the two
resulting primary offsets, 6 and 3, differ. -/
theorem c1_counterexample :
    determine_offsets_eeg [0, 1, 2, 3, 4, 5, 6, 7, 8] [0, 3, 0, 3, 0, 3, 0, 3, 0] = some 6 ∧
    primary_offset_spec [0, 1, 2, 3, 4, 5, 6, 7, 8] [0, 3, 0, 3, 0, 3, 0, 3, 0] = some 3 ∧
    some (6 : ℚ) ≠ some (3 : ℚ) := by
  refine ⟨?_, ?_, by norm_num⟩
  · norm_num [determine_offsets_eeg, syncMask, diffs, whereTrue]
  · norm_num [primary_offset_spec, diffs, whereTrue]

/-- Claim C1, amended: for every primary stream (time, trigger),
whenever the list of indices j at which the SIGNED trigger difference
lies strictly between 1 and 5 has a fourth element i (zero-based index
3), and i is a valid index of the time vector, the resolver returns
primary_offset = time[i].  (The claim said diff magnitude; the code uses
the signed difference, so falling edges are never sync-class.) -/
theorem c1_primary_offset_fourth_signed_edge (time trigger : List ℚ) (i : ℕ)
    (h4 : (((List.range (diffs trigger).length).filter
        (fun j => decide (1 < (diffs trigger).getD j 0 ∧ (diffs trigger).getD j 0 < 5)))[3]?)
        = some i)
    (hi : i < time.length) :
    determine_offsets_eeg time trigger = some (time.get ⟨i, hi⟩) := by
  have hmask : whereTrue (syncMask trigger)
      = (List.range (diffs trigger).length).filter
        (fun j => decide (1 < (diffs trigger).getD j 0 ∧ (diffs trigger).getD j 0 < 5)) := by
    rw [syncMask, whereTrue_eq_range_filter, List.length_map]
    refine List.filter_congr ?_
    intro j hj
    rw [List.mem_range] at hj
    exact getD_map_eval _ _ _ hj
  rw [determine_offsets_eeg, hmask, h4]
  show time[i]? = _
  rw [List.getElem?_eq_getElem hi]
  rfl

/-- Claim C1 witness: the amended theorem applied to a concrete stream
with four rising sync-class edges. -/
theorem c1_primary_offset_fourth_signed_edge_witness :
    ((((List.range (diffs [0, 3, 0, 3, 0, 3, 0, 3, 0]).length).filter
        (fun j => decide (1 < (diffs [0, 3, 0, 3, 0, 3, 0, 3, 0]).getD j 0 ∧
          (diffs [0, 3, 0, 3, 0, 3, 0, 3, 0]).getD j 0 < 5)))[3]?) = some 6) ∧
    determine_offsets_eeg [10, 11, 12, 13, 14, 15, 16, 17, 18] [0, 3, 0, 3, 0, 3, 0, 3, 0]
      = some 16 := by
  have h4 : (((List.range (diffs [0, 3, 0, 3, 0, 3, 0, 3, 0]).length).filter
      (fun j => decide (1 < (diffs [0, 3, 0, 3, 0, 3, 0, 3, 0]).getD j 0 ∧
        (diffs [0, 3, 0, 3, 0, 3, 0, 3, 0]).getD j 0 < 5)))[3]?) = some 6 := by
    norm_num [diffs, List.range_succ]
  refine ⟨h4, ?_⟩
  have h := c1_primary_offset_fourth_signed_edge
    [10, 11, 12, 13, 14, 15, 16, 17, 18] [0, 3, 0, 3, 0, 3, 0, 3, 0] 6 h4 (by norm_num)
  simpa using h

theorem zip_map_same {α β : Type} (f : ℕ → α) (g : ℕ → β) (l : List ℕ) :
    (l.map f).zip (l.map g) = l.map (fun i => (f i, g i)) := by
  induction l with
  | nil => rfl
  | cons x xs ih => simp [ih]

/-- Claim C4, counterexample.  For trigger [0, 8, 0] the code records
the corner at the FALLING edge (diff index 1, time 1/512), because the
states array trigger[nonzero(diff(trigger))] holds the level BEFORE
each transition; classifying by the post-transition level, as the claim
states, would put the corner at the rising edge (diff index 0, time
0). -/
theorem c4_counterexample :
    corners [0, 8, 0] = [1 / 512] ∧ corners_spec [0, 8, 0] = [0] ∧
    ([1 / 512] : List ℚ) ≠ [0] := by
  refine ⟨?_, ?_, by norm_num⟩
  · norm_num [corners, eventTimes, statesOf, transIdxs, diffs, whereTrue]
  · norm_num [corners_spec, eventTimes, statesOf, transIdxs, diffs, whereTrue]

/-- Claim C4, amended: for every trigger array, the transition indices
are exactly the positions of nonzero consecutive differences, each
transition is assigned the instant index/512 (the hard-coded primary
sample rate), and classification uses the PRE-transition trigger level
(the trigger value at the diff index): level 8 or 10 yields a corner
marker, level 4 or 6 an experiment-start marker. -/
theorem c4_pre_transition_classification (trigger : List ℚ) :
    transIdxs trigger = (List.range (diffs trigger).length).filter
      (fun j => decide ((diffs trigger).getD j 0 ≠ 0)) ∧
    corners trigger = ((transIdxs trigger).filter
      (fun i => decide (trigger.getD i 0 = 8 ∨ trigger.getD i 0 = 10))).map
        (fun i => (Nat.cast i : ℚ) / 512) ∧
    exp_start trigger = ((transIdxs trigger).filter
      (fun i => decide (trigger.getD i 0 = 4 ∨ trigger.getD i 0 = 6))).map
        (fun i => (Nat.cast i : ℚ) / 512) := by
  refine ⟨?_, ?_, ?_⟩
  · rw [transIdxs, whereTrue_eq_range_filter, List.length_map]
    refine List.filter_congr ?_
    intro j hj
    rw [List.mem_range] at hj
    exact getD_map_eval _ _ _ hj
  · rw [corners, eventTimes, statesOf, zip_map_same, List.filter_map, List.map_map]
    rfl
  · rw [exp_start, eventTimes, statesOf, zip_map_same, List.filter_map, List.map_map]
    rfl

/-- Claim C5: the extents attached to the experiment-start region are
taken from expExtents applied to the number of experiment-start
markers; with exactly one marker the extents array is the literal
[100], and with n + 2 markers it is n + 1 ones followed by a final
100. -/
theorem c5_experiment_extent_policy (trigger : List ℚ) (eegArrays tobiiArrays : List String)
    (n : ℕ) :
    (save_events trigger eegArrays tobiiArrays).exp_extents
      = expExtents (exp_start trigger).length ∧
    expExtents 1 = [100] ∧
    expExtents (n + 2) = List.replicate (n + 1) (1 : ℚ) ++ [100] := by
  refine ⟨rfl, rfl, ?_⟩
  have hrep : List.replicate (n + 2) (1 : ℚ) = List.replicate (n + 1) (1 : ℚ) ++ [1] :=
    List.replicate_succ' (n + 1) (1 : ℚ)
  rw [expExtents, if_pos (by simp), setLast, hrep, List.dropLast_concat]

theorem appendRefs_eq_append (refs l : List String) : appendRefs refs l = refs ++ l := by
  induction l generalizing refs with
  | nil => simp [appendRefs]
  | cons x xs ih => rw [appendRefs, ih, List.append_assoc]; rfl

/-- Claim C9: every data array of the EEG group and every data array of
the Tobii group ends up among the references of the corner region and
among the references of the experiment-start region produced by
save_events. -/
theorem c9_regions_reference_all_arrays (trigger : List ℚ) (eegArrays tobiiArrays : List String)
    (a : String) (ha : a ∈ eegArrays ∨ a ∈ tobiiArrays) :
    a ∈ (save_events trigger eegArrays tobiiArrays).corner_refs ∧
    a ∈ (save_events trigger eegArrays tobiiArrays).exp_refs := by
  have h : appendRefs (appendRefs [] eegArrays) tobiiArrays = eegArrays ++ tobiiArrays := by
    rw [appendRefs_eq_append, appendRefs_eq_append, List.nil_append]
  constructor <;>
  · show a ∈ appendRefs (appendRefs [] eegArrays) tobiiArrays
    rw [h, List.mem_append]
    exact ha

/-- Claim C9 witness: a concrete EEG array is referenced by both
regions. -/
theorem c9_regions_reference_all_arrays_witness :
    ("channel 1" ∈ (["channel 1", "channel 2"] : List String) ∨
      "channel 1" ∈ (["sync port"] : List String)) ∧
    "channel 1" ∈ (save_events [] ["channel 1", "channel 2"] ["sync port"]).corner_refs ∧
    "channel 1" ∈ (save_events [] ["channel 1", "channel 2"] ["sync port"]).exp_refs := by
  refine ⟨Or.inl (by decide), ?_⟩
  exact c9_regions_reference_all_arrays [] ["channel 1", "channel 2"] ["sync port"]
    "channel 1" (Or.inl (by decide))

/-- Claim C2: code bug.  On a secondary stream holding one outgoing sync
record with timestamp 0, the code evaluates record + 10*10^6 with the
whole json record (a dict) as left operand -- the "ts" entry is never
extracted -- which is a TypeError (none); the spec says the result is
the record timestamp plus the fixed lag, 10000000. -/
theorem c2_secondary_offset_missing_ts_extraction :
    determine_offsets_tobii
      [PyVal.dict [("ts", PyVal.int 0), ("dir", PyVal.str "out"), ("s", PyVal.int 0)]]
      = none ∧
    secondary_offset_spec
      [PyVal.dict [("ts", PyVal.int 0), ("dir", PyVal.str "out"), ("s", PyVal.int 0)]]
      = some 10000000 := by
  exact ⟨rfl, rfl⟩

theorem determine_offsets_eq_none_of_tobii (time trigger : List ℚ) (tobii : List PyVal)
    (h : determine_offsets_tobii tobii = none) :
    determine_offsets time trigger tobii = none := by
  unfold determine_offsets
  rw [h]
  cases determine_offsets_eeg time trigger <;> rfl

theorem mainOffsets_eq_none_of_tobii (time trigger : List ℚ) (tobii : List PyVal)
    (eegOv tobiiOv : Option ℚ) (h : determine_offsets_tobii tobii = none) :
    mainOffsets time trigger tobii eegOv tobiiOv = none := by
  unfold mainOffsets
  rw [determine_offsets_eq_none_of_tobii _ _ _ h]

/-- Claim C3: code bug.  Even with both command-line overrides supplied,
main still invokes determine_offsets first, so the conversion aborts
whenever the resolver raises: shown once on a trigger with no
sync-class edge at all, and once on a trigger with four sync-class
edges, where the resolver still raises on the Tobii side (claim C2), so
the overrides never take effect.  The claim says the resolver is
bypassed entirely. -/
theorem c3_overrides_do_not_bypass_resolver :
    mainOffsets [0, 1, 2, 3, 4] [0, 0, 0, 0, 0]
      [PyVal.dict [("ts", PyVal.int 0), ("dir", PyVal.str "out"), ("s", PyVal.int 0)]]
      (some 1) (some 2) = none ∧
    mainOffsets [0, 1, 2, 3, 4, 5, 6, 7, 8] [0, 3, 0, 3, 0, 3, 0, 3, 0]
      [PyVal.dict [("ts", PyVal.int 0), ("dir", PyVal.str "out"), ("s", PyVal.int 0)]]
      (some 1) (some 2) = none := by
  have htob : determine_offsets_tobii
      [PyVal.dict [("ts", PyVal.int 0), ("dir", PyVal.str "out"), ("s", PyVal.int 0)]]
      = none := rfl
  constructor
  · rw [mainOffsets_eq_none_of_tobii _ _ _ _ _ htob]
  · rw [mainOffsets_eq_none_of_tobii _ _ _ _ _ htob]

/- ------------------------------------------------------------------ -/
/- TimeBase: write_channel_data (source lines 71-104)                  -/
/- ------------------------------------------------------------------ -/

/-- Mean inter-sample interval, np.mean(np.diff(time)). -/
def dtOf (time : List ℚ) : ℚ :=
  (diffs time).sum / ((diffs time).length : ℚ)

/-- Machine epsilon for single precision, np.finfo(np.float32).eps =
2 to the power -23. -/
def eps32 : ℚ := 1 / 2 ^ 23

/-- Drift between the nominal sampling rate and the one implied by the
timestamps (source line 76): 1/dt - sr. -/
def driftOf (time : List ℚ) (sr : ℚ) : ℚ :=
  1 / dtOf time - sr

/-- Time dimension attached to a channel data array: either explicit
per-sample times (range dimension) or a single sampling interval
(sampled dimension). -/
inductive TimeDim where
  | range : List ℚ → TimeDim
  | sampled : ℚ → TimeDim
deriving DecidableEq

/-- Shallow embedding of write_channel_data (source lines 71-104) on
the per-channel time dimensions: dt, the drift and the strategy choice
are computed once, before the channel loop; the returned flag is true
exactly when the range (irregular) strategy is selected, which is also
when the storage warning is printed; every channel then receives the
same dimension. -/
def write_channel_data (data : List (List ℚ)) (time : List ℚ) (sr : ℚ) :
    Bool × List TimeDim :=
  let dt := dtOf time
  let use_range := decide (eps32 < 1 / dt - sr)
  (use_range,
   data.map (fun _ => if use_range then TimeDim.range time else TimeDim.sampled dt))

/-- Claim C6: the dimension-strategy decision of write_channel_data is
a single group-level decision: the warning flag is raised exactly when
the drift 1/dt - sr exceeds single-precision machine epsilon, every
channel of the group gets one and the same dimension -- explicit times
when the drift exceeds epsilon, the single mean interval dt otherwise
-- and one dimension is produced per channel. -/
theorem c6_timebase_strategy (data : List (List ℚ)) (time : List ℚ) (sr : ℚ)
    (d : TimeDim) (hd : d ∈ (write_channel_data data time sr).2) :
    ((write_channel_data data time sr).1 = true ↔ eps32 < driftOf time sr) ∧
    d = (if eps32 < driftOf time sr then TimeDim.range time
         else TimeDim.sampled (dtOf time)) ∧
    (write_channel_data data time sr).2.length = data.length := by
  refine ⟨?_, ?_, by simp [write_channel_data]⟩
  · simp [write_channel_data, driftOf]
  · rw [write_channel_data] at hd
    simp only [List.mem_map] at hd
    obtain ⟨c, hc, hdc⟩ := hd
    rw [← hdc, driftOf]
    by_cases h : eps32 < 1 / dtOf time - sr
    · simp [h]
    · simp [h]

/-- Claim C6 witness: a two-channel group sampled at exactly the
nominal rate 1 gets the uniform (sampled) dimension on each channel. -/
theorem c6_timebase_strategy_witness :
    TimeDim.sampled 1 ∈ (write_channel_data [[5], [7]] [0, 1, 2] 1).2 ∧
    (((write_channel_data [[5], [7]] [0, 1, 2] 1).1 = true ↔
        eps32 < driftOf [0, 1, 2] 1) ∧
      TimeDim.sampled 1 = (if eps32 < driftOf [0, 1, 2] 1 then TimeDim.range [0, 1, 2]
         else TimeDim.sampled (dtOf [0, 1, 2])) ∧
      (write_channel_data [[5], [7]] [0, 1, 2] 1).2.length = [[5], [7]].length) := by
  have hdt : dtOf [0, 1, 2] = 1 := by
    norm_num [dtOf, diffs]
  have hmem : TimeDim.sampled 1 ∈ (write_channel_data [[5], [7]] [0, 1, 2] 1).2 := by
    have hb : decide (eps32 < 1 / dtOf [0, 1, 2] - 1) = false := by
      rw [hdt]; norm_num [eps32]
    simp only [write_channel_data, List.mem_map]
    exact ⟨[5], by simp, by rw [hb]; simp [hdt]⟩
  exact ⟨hmem, c6_timebase_strategy [[5], [7]] [0, 1, 2] 1 (TimeDim.sampled 1) hmem⟩

/- ------------------------------------------------------------------ -/
/- PropertyChannelBuilder: the write_tobii_* family (source 210-589)   -/
/- ------------------------------------------------------------------ -/

/-- Typed model of one Tobii json record: a timestamp, a status field,
and one optional entry per telemetry property (schema varies per
record, so every property is optional). -/
structure TRec where
  ts : Int
  s : ℚ := 0
  eye : Option String := none
  pd : Option ℚ := none
  pc : Option (ℚ × ℚ × ℚ) := none
  gd : Option (ℚ × ℚ × ℚ) := none
  gp : Option (ℚ × ℚ) := none
  l : Option ℚ := none
  gp3 : Option (ℚ × ℚ × ℚ) := none
  gy : Option (ℚ × ℚ × ℚ) := none
  ac : Option (ℚ × ℚ × ℚ) := none
  pts : Option ℚ := none
  pv : Option ℚ := none
  vts : Option ℚ := none
  evts : Option ℚ := none
  dir : Option String := none
  sig : Option ℚ := none
deriving DecidableEq

/-- One insertion step of a stable ascending insertion sort on the
"ts" key: the new element is placed before the first existing element
whose key is not smaller, so it lands before any later-arriving equal
key. -/
def insertTs (a : TRec) : List TRec → List TRec
  | [] => [a]
  | x :: xs => if x.ts < a.ts then x :: insertTs a xs else a :: x :: xs

/-- Model of Python sorted(..., key=itemgetter("ts")): a stable sort,
ascending in the raw timestamp, realised as insertion sort. -/
def sortTs : List TRec → List TRec
  | [] => []
  | a :: rest => insertTs a (sortTs rest)

theorem length_insertTs (a : TRec) (l : List TRec) :
    (insertTs a l).length = l.length + 1 := by
  induction l with
  | nil => rfl
  | cons x xs ih =>
      rw [insertTs]
      by_cases h : x.ts < a.ts
      · rw [if_pos h]
        simp [ih]
      · rw [if_neg h]
        rfl

theorem length_sortTs (l : List TRec) : (sortTs l).length = l.length := by
  induction l with
  | nil => rfl
  | cons a rest ih =>
      rw [sortTs, length_insertTs, ih]
      rfl

theorem mem_insertTs (a b : TRec) (l : List TRec) :
    b ∈ insertTs a l ↔ b = a ∨ b ∈ l := by
  induction l with
  | nil => simp [insertTs]
  | cons x xs ih =>
      rw [insertTs]
      by_cases h : x.ts < a.ts
      · rw [if_pos h]
        simp only [List.mem_cons, ih]
        tauto
      · rw [if_neg h]
        simp only [List.mem_cons]

theorem pairwise_insertTs (a : TRec) (l : List TRec)
    (h : l.Pairwise (fun x y => x.ts ≤ y.ts)) :
    (insertTs a l).Pairwise (fun x y => x.ts ≤ y.ts) := by
  induction l with
  | nil => simp [insertTs]
  | cons x xs ih =>
      rw [List.pairwise_cons] at h
      obtain ⟨hx, hxs⟩ := h
      rw [insertTs]
      by_cases hlt : x.ts < a.ts
      · rw [if_pos hlt]
        rw [List.pairwise_cons]
        refine ⟨?_, ih hxs⟩
        intro b hb
        rw [mem_insertTs] at hb
        rcases hb with hb | hb
        · rw [hb]; exact le_of_lt hlt
        · exact hx b hb
      · rw [if_neg hlt]
        rw [List.pairwise_cons]
        refine ⟨?_, List.pairwise_cons.mpr ⟨hx, hxs⟩⟩
        intro b hb
        rcases List.mem_cons.mp hb with hb | hb
        · rw [hb]; exact le_of_not_lt hlt
        · exact le_trans (le_of_not_lt hlt) (hx b hb)

theorem sortTs_pairwise (l : List TRec) :
    (sortTs l).Pairwise (fun x y => x.ts ≤ y.ts) := by
  induction l with
  | nil => exact List.Pairwise.nil
  | cons a rest ih => exact pairwise_insertTs a (sortTs rest) ih

theorem filter_ts_insertTs (v : Int) (a : TRec) (m : List TRec) :
    (insertTs a m).filter (fun r => r.ts == v)
      = if a.ts == v then a :: m.filter (fun r => r.ts == v)
        else m.filter (fun r => r.ts == v) := by
  induction m with
  | nil =>
      rw [insertTs]
      by_cases hav : a.ts = v
      · rw [if_pos (beq_iff_eq.mpr hav)]
        simp [hav]
      · rw [if_neg (by simpa using hav)]
        simp [hav]
  | cons x xs ih =>
      rw [insertTs]
      by_cases hlt : x.ts < a.ts
      · rw [if_pos hlt, List.filter_cons]
        by_cases hav : a.ts = v
        · have hxv : (x.ts == v) = false := by
            simp only [beq_eq_false_iff_ne]
            omega
          rw [hxv, if_neg (by simp), ih, if_pos (beq_iff_eq.mpr hav),
            if_pos (beq_iff_eq.mpr hav), List.filter_cons, hxv, if_neg (by simp)]
        · have hav' : (a.ts == v) = false := by simpa using hav
          rw [ih, hav']
          simp [List.filter_cons]
      · rw [if_neg hlt, List.filter_cons]

theorem filter_ts_sortTs (v : Int) (l : List TRec) :
    (sortTs l).filter (fun r => r.ts == v) = l.filter (fun r => r.ts == v) := by
  induction l with
  | nil => rfl
  | cons a rest ih =>
      rw [sortTs, filter_ts_insertTs, List.filter_cons]
      by_cases hav : a.ts = v
      · rw [if_pos (beq_iff_eq.mpr hav), if_pos (beq_iff_eq.mpr hav), ih]
      · have hav' : (a.ts == v) = false := by simpa using hav
        rw [hav']
        simp [ih]

/-- Dimension attached to a Tobii property data array: an explicit
timestamp (range) dimension, or a set dimension that may or may not
carry component labels. -/
inductive Dim where
  | range : List Int → Dim
  | set : Option (List String) → Dim
deriving DecidableEq

/-- A produced Tobii property data array: its name, its combined rows
(value components followed by the status field), and its dimensions in
append order. -/
structure PropDA where
  name : String
  combined : List (List ℚ)
  dims : List Dim
deriving DecidableEq

/-- Record filter of write_tobii_pupil_diameter (source line 563):
records containing "pd" whose "eye" equals the requested side. -/
def pdFilter (tobii : List TRec) (eye : String) : List TRec :=
  (tobii.filter (fun x => x.pd.isSome)).filter (fun y => y.eye == some eye)

/-- Shallow embedding of write_tobii_pupil_diameter (source lines
561-589): filter, stable sort by raw timestamp, rows [diameter,
status], offset-corrected timestamps; on an empty result only one
unlabeled set dimension is appended, otherwise a range dimension with
the corrected timestamps followed by a labeled set dimension. -/
def write_tobii_pupil_diameter (tobii : List TRec) (off : Int) (eye : String) : PropDA :=
  { name := "pupil diameter " ++ eye
    combined := (sortTs (pdFilter tobii eye)).map (fun e => [e.pd.getD 0, e.s])
    dims :=
      if ((sortTs (pdFilter tobii eye)).map (fun e => [e.pd.getD 0, e.s])).length < 1 then
        [Dim.set none]
      else
        [Dim.range ((sortTs (pdFilter tobii eye)).map (fun e => e.ts - off)),
         Dim.set (some ["diameter", "error"])] }

/-- Record filter of write_tobii_sync_port (source line 242): records
containing "dir". -/
def dirFilter (tobii : List TRec) : List TRec :=
  tobii.filter (fun x => x.dir.isSome)

/-- Shallow embedding of write_tobii_sync_port (source lines 240-272):
rows [direction (1 for "in", else 0), signal, status]; on an empty
result only one unlabeled set dimension, otherwise range plus labeled
set dimension. -/
def write_tobii_sync_port (tobii : List TRec) (off : Int) : PropDA :=
  { name := "sync port"
    combined := (sortTs (dirFilter tobii)).map
      (fun e => [if e.dir == some "in" then (1 : ℚ) else 0, e.sig.getD 0, e.s])
    dims :=
      if ((sortTs (dirFilter tobii)).map
          (fun e => [if e.dir == some "in" then (1 : ℚ) else 0, e.sig.getD 0, e.s])).length
          < 1 then
        [Dim.set none]
      else
        [Dim.range ((sortTs (dirFilter tobii)).map (fun e => e.ts - off)),
         Dim.set (some ["direction", "signal", "error"])] }

/- ------------------------------------------------------------------ -/
/- ContainerAssembler: write_tobii_data group wiring (source 210-237)  -/
/- ------------------------------------------------------------------ -/

/-- Names of the six eye-specific Tobii arrays, in the order
write_tobii_data appends them to the group unconditionally (source
lines 213-226). -/
def sixEyeNames : List String :=
  ["pupil center left", "pupil center right", "pupil diameter left",
   "pupil diameter right", "gaze direction left", "gaze direction right"]

/-- Conditional group membership used by the remaining eight builders:
the array id is appended to the group only in the non-empty branch
(for example source line 272 for the sync port). -/
def condMember (tobii : List TRec) (p : TRec → Bool) (nm : String) : List String :=
  if (sortTs (tobii.filter p)).length < 1 then [] else [nm]

/-- The Tobii group contents produced by write_tobii_data (source lines
210-237): the six eye-specific arrays unconditionally, then each of the
other eight arrays only when its filtered record set is non-empty, in
call order. -/
def tobiiGroupMembers (tobii : List TRec) : List String :=
  sixEyeNames
    ++ condMember tobii (fun r => r.gp.isSome) "gaze position"
    ++ condMember tobii (fun r => r.gp3.isSome) "gaze position 3D"
    ++ condMember tobii (fun r => r.gy.isSome) "MEMS gyroscope"
    ++ condMember tobii (fun r => r.ac.isSome) "MEMS accelerometer"
    ++ condMember tobii (fun r => r.pts.isSome) "pipeline timestamp"
    ++ condMember tobii (fun r => r.vts.isSome) "video timestamp"
    ++ condMember tobii (fun r => r.evts.isSome) "evts"
    ++ condMember tobii (fun r => r.dir.isSome) "sync port"

theorem mem_condMember (x nm : String) (tobii : List TRec) (p : TRec → Bool) :
    x ∈ condMember tobii p nm ↔ x = nm ∧ tobii.filter p ≠ [] := by
  rw [condMember]
  by_cases h : (sortTs (tobii.filter p)).length < 1
  · rw [if_pos h]
    rw [length_sortTs] at h
    have hnil : tobii.filter p = [] := by
      cases hfp : tobii.filter p with
      | nil => rfl
      | cons y ys => rw [hfp] at h; simp at h
    simp [hnil]
  · rw [if_neg h]
    rw [length_sortTs] at h
    have hne : tobii.filter p ≠ [] := by
      intro hc
      rw [hc] at h
      simp at h
    simp [hne]

/-- Claim C7: a pupil-diameter channel built from a non-empty filtered
record set has exactly one output row per matching input record, the
underlying sorted record list is ascending in the raw timestamp and
keeps records with equal timestamps in their original input order, the
rows are taken from that sorted order, and the attached timestamp
dimension holds raw timestamp minus the secondary offset for each
sample. -/
theorem c7_property_channel_build (tobii : List TRec) (off : Int) (eye : String) (v : Int)
    (hne : pdFilter tobii eye ≠ []) :
    (write_tobii_pupil_diameter tobii off eye).combined.length
      = (pdFilter tobii eye).length ∧
    (sortTs (pdFilter tobii eye)).Pairwise (fun x y => x.ts ≤ y.ts) ∧
    (sortTs (pdFilter tobii eye)).filter (fun r => r.ts == v)
      = (pdFilter tobii eye).filter (fun r => r.ts == v) ∧
    (write_tobii_pupil_diameter tobii off eye).combined
      = (sortTs (pdFilter tobii eye)).map (fun e => [e.pd.getD 0, e.s]) ∧
    (write_tobii_pupil_diameter tobii off eye).dims
      = [Dim.range ((sortTs (pdFilter tobii eye)).map (fun e => e.ts - off)),
         Dim.set (some ["diameter", "error"])] := by
  have hlen : ((sortTs (pdFilter tobii eye)).map
      (fun e => [e.pd.getD 0, e.s])).length = (pdFilter tobii eye).length := by
    rw [List.length_map, length_sortTs]
  refine ⟨hlen, sortTs_pairwise _, filter_ts_sortTs _ _, rfl, ?_⟩
  show (if ((sortTs (pdFilter tobii eye)).map (fun e => [e.pd.getD 0, e.s])).length < 1
      then [Dim.set none]
      else [Dim.range ((sortTs (pdFilter tobii eye)).map (fun e => e.ts - off)),
        Dim.set (some ["diameter", "error"])]) = _
  rw [if_neg]
  rw [hlen]
  have := List.length_pos.mpr hne
  omega

/-- Concrete records for the claim C7 witness: two share the raw
timestamp 5, one sits earlier at 3. -/
def recA : TRec := { ts := 5, s := 0, eye := some "left", pd := some 2 }

def recB : TRec := { ts := 3, s := 1, eye := some "left", pd := some 1 }

def recC : TRec := { ts := 5, s := 2, eye := some "left", pd := some 7 }

/-- Claim C7 witness: the build theorem applied to the three concrete
records, with the timestamp tie at 5 probed for stability. -/
theorem c7_property_channel_build_witness :
    pdFilter [recA, recB, recC] "left" ≠ [] ∧
    ((write_tobii_pupil_diameter [recA, recB, recC] 2 "left").combined.length
        = (pdFilter [recA, recB, recC] "left").length ∧
      (sortTs (pdFilter [recA, recB, recC] "left")).Pairwise (fun x y => x.ts ≤ y.ts) ∧
      (sortTs (pdFilter [recA, recB, recC] "left")).filter (fun r => r.ts == (5 : Int))
        = (pdFilter [recA, recB, recC] "left").filter (fun r => r.ts == (5 : Int)) ∧
      (write_tobii_pupil_diameter [recA, recB, recC] 2 "left").combined
        = (sortTs (pdFilter [recA, recB, recC] "left")).map (fun e => [e.pd.getD 0, e.s]) ∧
      (write_tobii_pupil_diameter [recA, recB, recC] 2 "left").dims
        = [Dim.range ((sortTs (pdFilter [recA, recB, recC] "left")).map
            (fun e => e.ts - 2)),
           Dim.set (some ["diameter", "error"])]) := by
  have hne : pdFilter [recA, recB, recC] "left" ≠ [] := by decide
  exact ⟨hne, c7_property_channel_build [recA, recB, recC] 2 "left" 5 hne⟩

/-- Claim C8, counterexample.  On an empty filtered record set the
pupil-diameter builder does NOT omit both the time and the categorical
dimension: it appends one unlabeled set dimension (source line 577,
da.append_set_dimension in the empty branch), so the dimension list is
nonempty. -/
theorem c8_counterexample :
    (write_tobii_pupil_diameter [] 0 "left").dims = [Dim.set none] ∧
    ([Dim.set none] : List Dim) ≠ [] := by
  exact ⟨rfl, by decide⟩

/-- Claim C8, amended: on an empty filtered record set the builders do
not raise and produce a channel with zero samples; the timestamp
(range) dimension and the labeled categorical dimension are not built,
but the dimension list is not empty: a single unlabeled set dimension
is appended in their place.  Shown for the pupil-diameter builder and
the sync-port builder. -/
theorem c8_empty_channel_policy (tobii tobii2 : List TRec) (off off2 : Int) (eye : String)
    (hpd : pdFilter tobii eye = []) (hdir : dirFilter tobii2 = []) :
    (write_tobii_pupil_diameter tobii off eye).combined = [] ∧
    (write_tobii_pupil_diameter tobii off eye).dims = [Dim.set none] ∧
    (write_tobii_sync_port tobii2 off2).combined = [] ∧
    (write_tobii_sync_port tobii2 off2).dims = [Dim.set none] := by
  refine ⟨?_, ?_, ?_, ?_⟩ <;>
    simp [write_tobii_pupil_diameter, write_tobii_sync_port, hpd, hdir, sortTs]

/-- Claim C8 witness: the empty-record-set policy evaluated on the
empty secondary stream. -/
theorem c8_empty_channel_policy_witness :
    pdFilter [] "right" = [] ∧ dirFilter [] = [] ∧
    ((write_tobii_pupil_diameter [] 7 "right").combined = [] ∧
      (write_tobii_pupil_diameter [] 7 "right").dims = [Dim.set none] ∧
      (write_tobii_sync_port [] 9).combined = [] ∧
      (write_tobii_sync_port [] 9).dims = [Dim.set none]) := by
  exact ⟨rfl, rfl, c8_empty_channel_policy [] [] 7 9 "right" rfl rfl⟩

/-- Claim C10: group membership of the Tobii arrays is asymmetric.  The
six eye-specific arrays are in the group whatever the records; each of
the other eight arrays is in the group exactly when its filtered record
set is non-empty; and an array name absent from both the EEG group and
the Tobii group (as an empty one of the eight is) receives no reference
from either event region. -/
theorem c10_group_membership_asymmetry (tobii : List TRec) (trigger : List ℚ)
    (eegNames : List String) (nm nm2 : String)
    (hsix : nm ∈ sixEyeNames)
    (hnotEeg : nm2 ∉ eegNames)
    (hnotTob : nm2 ∉ tobiiGroupMembers tobii) :
    nm ∈ tobiiGroupMembers tobii ∧
    ("gaze position" ∈ tobiiGroupMembers tobii
      ↔ tobii.filter (fun r => r.gp.isSome) ≠ []) ∧
    ("gaze position 3D" ∈ tobiiGroupMembers tobii
      ↔ tobii.filter (fun r => r.gp3.isSome) ≠ []) ∧
    ("MEMS gyroscope" ∈ tobiiGroupMembers tobii
      ↔ tobii.filter (fun r => r.gy.isSome) ≠ []) ∧
    ("MEMS accelerometer" ∈ tobiiGroupMembers tobii
      ↔ tobii.filter (fun r => r.ac.isSome) ≠ []) ∧
    ("pipeline timestamp" ∈ tobiiGroupMembers tobii
      ↔ tobii.filter (fun r => r.pts.isSome) ≠ []) ∧
    ("video timestamp" ∈ tobiiGroupMembers tobii
      ↔ tobii.filter (fun r => r.vts.isSome) ≠ []) ∧
    ("evts" ∈ tobiiGroupMembers tobii
      ↔ tobii.filter (fun r => r.evts.isSome) ≠ []) ∧
    ("sync port" ∈ tobiiGroupMembers tobii
      ↔ tobii.filter (fun r => r.dir.isSome) ≠ []) ∧
    nm2 ∉ (save_events trigger eegNames (tobiiGroupMembers tobii)).corner_refs ∧
    nm2 ∉ (save_events trigger eegNames (tobiiGroupMembers tobii)).exp_refs := by
  have hrefs : (save_events trigger eegNames (tobiiGroupMembers tobii)).corner_refs
      = eegNames ++ tobiiGroupMembers tobii := by
    show appendRefs (appendRefs [] eegNames) (tobiiGroupMembers tobii) = _
    rw [appendRefs_eq_append, appendRefs_eq_append, List.nil_append]
  have hrefs2 : (save_events trigger eegNames (tobiiGroupMembers tobii)).exp_refs
      = eegNames ++ tobiiGroupMembers tobii := hrefs
  refine ⟨?_, ?_, ?_, ?_, ?_, ?_, ?_, ?_, ?_, ?_, ?_⟩
  · simp [tobiiGroupMembers, List.mem_append, hsix]
  all_goals first
    | (rw [hrefs]; simp [List.mem_append, hnotEeg, hnotTob])
    | (rw [hrefs2]; simp [List.mem_append, hnotEeg, hnotTob])
    | (simp [tobiiGroupMembers, List.mem_append, mem_condMember, sixEyeNames])

/-- Claim C10 witness: with no Tobii records the group holds exactly
the six eye-specific arrays; the sync port array is absent and
unreferenced. -/
theorem c10_group_membership_asymmetry_witness :
    "pupil center left" ∈ sixEyeNames ∧
    "sync port" ∉ ([] : List String) ∧
    "sync port" ∉ tobiiGroupMembers [] ∧
    ("pupil center left" ∈ tobiiGroupMembers [] ∧
      ("gaze position" ∈ tobiiGroupMembers []
        ↔ List.filter (fun r => r.gp.isSome) ([] : List TRec) ≠ []) ∧
      ("gaze position 3D" ∈ tobiiGroupMembers []
        ↔ List.filter (fun r => r.gp3.isSome) ([] : List TRec) ≠ []) ∧
      ("MEMS gyroscope" ∈ tobiiGroupMembers []
        ↔ List.filter (fun r => r.gy.isSome) ([] : List TRec) ≠ []) ∧
      ("MEMS accelerometer" ∈ tobiiGroupMembers []
        ↔ List.filter (fun r => r.ac.isSome) ([] : List TRec) ≠ []) ∧
      ("pipeline timestamp" ∈ tobiiGroupMembers []
        ↔ List.filter (fun r => r.pts.isSome) ([] : List TRec) ≠ []) ∧
      ("video timestamp" ∈ tobiiGroupMembers []
        ↔ List.filter (fun r => r.vts.isSome) ([] : List TRec) ≠ []) ∧
      ("evts" ∈ tobiiGroupMembers []
        ↔ List.filter (fun r => r.evts.isSome) ([] : List TRec) ≠ []) ∧
      ("sync port" ∈ tobiiGroupMembers []
        ↔ List.filter (fun r => r.dir.isSome) ([] : List TRec) ≠ []) ∧
      "sync port" ∉ (save_events [] [] (tobiiGroupMembers [])).corner_refs ∧
      "sync port" ∉ (save_events [] [] (tobiiGroupMembers [])).exp_refs) := by
  have h1 : "pupil center left" ∈ sixEyeNames := by decide
  have h2 : "sync port" ∉ ([] : List String) := by simp
  have h3 : "sync port" ∉ tobiiGroupMembers [] := by decide
  exact ⟨h1, h2, h3,
    c10_group_membership_asymmetry [] [] [] "pupil center left" "sync port" h1 h2 h3⟩

end Wagatonix
